import Mathlib

/-!
Verification of the cpu client (cmds/cpu/cpu.go) against its
natural-language specification. Shallow embedding: each Go function the
claims touch is translated to an executable Lean definition; bytes are
modelled as `Nat` (below 256) or as `Char` for the terminal byte stream,
fallible operations return `Option` or `Except`, and the effects that
matter for the lifecycle claims (raw-mode entry, terminal restore,
process exit) are modelled as explicit event traces.
-/

/-! ## Terminal input relay (function `stdin`, cpu.go lines 212-256)

The Go code keeps two booleans `newLine` and `tilde`, reads one byte at a
time, and switches on the byte. We model one loop iteration as
`stdinStep`, returning the bytes written to the remote stdin stream, the
updated state, and whether the session stream was closed (the
`s.Close(); return` path). Bytes are modelled as `Char` (the examples in
the claims are ASCII). Writes are modelled as always succeeding; the
claims concern the forwarding behaviour, not write failures. -/

structure StdinState where
  newLine : Bool
  tilde : Bool
deriving DecidableEq

/-- One iteration of the `for` loop in `stdin`: the `switch b[0]` statement.
Returns (bytes written, new state, closed). Mirrors the Go cases in order:
`'\n', '\r'` set `newLine` and forward (note: `tilde` is NOT cleared);
`'~'` after a newline arms the escape, otherwise forwards one `~` (note:
`tilde` is NOT cleared and the byte itself is not separately forwarded);
`'.'` with the escape armed closes the stream and stops; the default case
flushes a pending `~`, clears both flags, and forwards the byte. -/
def stdinStep (st : StdinState) (b : Char) : List Char × StdinState × Bool :=
  if b = '\n' ∨ b = '\r' then
    ([b], ⟨true, st.tilde⟩, false)
  else if b = '~' then
    if st.newLine then
      ([], ⟨false, true⟩, false)
    else
      (['~'], st, false)
  else if b = '.' then
    if st.tilde then
      ([], st, true)
    else
      ([b], st, false)
  else
    (if st.tilde then ['~', b] else [b], ⟨false, false⟩, false)

/-- The whole `stdin` relay loop on a finite input byte list: repeatedly
apply `stdinStep`, stopping (and leaving the rest of the input unread)
as soon as a step reports the stream closed. Returns (all bytes
forwarded, final state, closed). -/
def stdinRun (st : StdinState) : List Char → List Char × StdinState × Bool
  | [] => ([], st, false)
  | b :: rest =>
    match stdinStep st b with
    | (out, st2, true) => (out, st2, true)
    | (out, st2, false) =>
      match stdinRun st2 rest with
      | (out2, st3, c3) => (out ++ out2, st3, c3)

/-- The relay's initial state: `newLine` and `tilde` both false. -/
def stdinInit : StdinState := ⟨false, false⟩

/-- The spec's `ESCAPE_ARMED` state: a newline was seen, then `~` consumed
(`newLine` was reset to false, `tilde` set). -/
def armed : StdinState := ⟨false, true⟩

/-! ## Secret generator (function `generateNonce`, cpu.go lines 57-66)

`generateNonce` reads `len(nonce{})/2 = 16` random bytes; on a read error
it returns the error, otherwise it renders the bytes with
`fmt.Sprintf("%02x", b)` (lowercase hexadecimal, two digits per byte)
and copies the 32 resulting characters into the `[32]byte` nonce.
Bytes are modelled as `Nat` below 256; the fallible random read is
modelled as an `Option (List Nat)` argument (`none` = read error). -/

/-- Hexadecimal digit character for a value below 16 (lowercase), as
produced by the `%x` verb. -/
def hexDigit (n : Nat) : Char :=
  if n < 10 then Char.ofNat (48 + n) else Char.ofNat (97 + (n - 10))

/-- Lowercase hexadecimal rendering of a byte list, two digits per byte,
as produced by `fmt.Sprintf("%02x", b)` on a byte array. -/
def hexEncode : List Nat → List Char
  | [] => []
  | b :: rest => hexDigit (b / 16) :: hexDigit (b % 16) :: hexEncode rest

/-- The body of `generateNonce`: propagate a random-read failure,
otherwise hex-encode the bytes read. -/
def generateNonce (r : Option (List Nat)) : Option (List Char) :=
  match r with
  | none => none
  | some bs => some (hexEncode bs)

/-- Character class of the claim: a lowercase hexadecimal digit. -/
def isHexLower (c : Char) : Bool :=
  (('0' ≤ c) && (c ≤ '9')) || (('a' ≤ c) && (c ≤ 'f'))

/-! ## Reverse-listener address parsing (cpu.go lines 178-182)

`runClient` does `ap := strings.Split(l.Addr().String(), ":")`, errors if
`len(ap) == 0`, and takes `ap[len(ap)-1]` as the 9p port. We model
`strings.Split` with separator ":" faithfully: it yields one piece more
than the number of separators, so the result is never empty. -/

/-- Go `strings.Split(s, ":")`: split at every colon; the result always
has at least one element (`Split("", ":")` is `[""]`). -/
def splitColon : List Char → List (List Char)
  | [] => [[]]
  | c :: rest =>
    if c = ':' then [] :: splitColon rest
    else
      match splitColon rest with
      | [] => [[c]]
      | h :: t => (c :: h) :: t

/-- The address-to-port fragment of `runClient`: split on colons, return
the error from the `len(ap) == 0` guard, else the last piece (the Go
index `ap[len(ap)-1]`, rendered total with `getLastD` — the guard has
already ensured the list is considered nonempty on that path). The
error value carries the address, as the Go error message does. -/
def extractPort9p (addr : List Char) : Except (List Char) (List Char) :=
  let ap := splitColon addr
  if ap.length = 0 then Except.error addr
  else Except.ok (ap.getLastD [])

/-! ## Remote command construction (`runClient`, cpu.go lines 150-198, and
`main`, lines 353-363)

`runClient` decides namespace mode from `CPU_NAMESPACE` (present and
empty disables it), builds `cmd = "<bin> -remote -bin <bin>"`, appends
`-port9p <port>` and the `CPUNONCE` environment entry only in namespace
mode, and finally appends the user command with the `%q` verb (Go
double-quoted form). `main` substitutes `$SHELL` for an empty command
before calling `runClient`. -/

/-- Go `%q` escaping of one ASCII character inside a double-quoted
string literal. -/
def goQuoteChar (c : Char) : List Char :=
  if c = '"' then ['\\', '"']
  else if c = '\\' then ['\\', '\\']
  else if c = '\n' then ['\\', 'n']
  else if c = '\r' then ['\\', 'r']
  else if c = '\t' then ['\\', 't']
  else if c.toNat < 32 ∨ c.toNat = 127 then
    ['\\', 'x', hexDigit (c.toNat / 16), hexDigit (c.toNat % 16)]
  else [c]

/-- Go `fmt.Sprintf("%q", s)` for an ASCII string: the string surrounded
by double quotes, characters escaped as in a Go string literal. -/
def goQuote (s : String) : String :=
  "\"" ++ String.mk (List.flatten (s.toList.map goQuoteChar)) ++ "\""

/-- The `wantNameSpace` computation (cpu.go lines 152-155): true unless
`CPU_NAMESPACE` is present (`some`) with an empty value. The argument is
`os.LookupEnv("CPU_NAMESPACE")`. -/
def wantNameSpace (cpuNamespace : Option String) : Bool :=
  match cpuNamespace with
  | some n => !(n.length == 0)
  | none => true

/-- What `runClient` hands to `shell`: the remote command string, the
extra environment entries, plus flags recording whether a reverse
listener was requested and a nonce generated on this path. -/
structure BuiltSession where
  cmd : String
  envAdd : List String
  listenRequested : Bool
  nonceGenerated : Bool
deriving DecidableEq

/-- The command/environment-building portion of `runClient` (lines
150-193): in namespace mode request the listener (whose granted address
is `listenerAddr`), extract the port, generate the nonce (here passed in
as `nonceStr`), append the port flag and the `CPUNONCE` entry; in either
mode finish with `cmd = fmt.Sprintf("%s %q", cmd, a)`. -/
def buildRemote (bin : String) (cpuNamespace : Option String)
    (listenerAddr : String) (nonceStr : String) (a : String) :
    Except (List Char) BuiltSession :=
  let base := bin ++ " -remote -bin " ++ bin
  if wantNameSpace cpuNamespace then
    match extractPort9p listenerAddr.toList with
    | Except.error e => Except.error e
    | Except.ok p =>
      Except.ok ⟨base ++ " -port9p " ++ String.mk p ++ " " ++ goQuote a,
        ["CPUNONCE=" ++ nonceStr], true, true⟩
  else
    Except.ok ⟨base ++ " " ++ goQuote a, [], false, false⟩

/-- The command field of a built session (for stating counterexamples
without needing decidable equality on `Except`). -/
def builtCmd : Except (List Char) BuiltSession → String
  | Except.ok b => b.cmd
  | Except.error _ => ""

/-- The argument-defaulting step in `main` (lines 361-363): an empty
joined argument string is replaced by the value of `SHELL`. -/
def defaultCommand (a shellEnv : String) : String :=
  if a = "" then shellEnv else a

/-! ## Session lifecycle and exit mapping (`shell`, cpu.go lines 258-313,
and `main`, lines 353-382)

`shell` enters raw mode and `defer`s the restore (`defer t.Set(r)`). If
`session.RequestPty` fails it calls `log.Fatal`, which exits the process
with status 1 and runs no deferred functions. If `session.Start` fails
it returns an error (the deferred restore runs). Otherwise it returns
`session.Wait()`, so the deferred restore runs after the wait. Back in
`main`, a non-nil error from `runClient` selects an exit status (the
`ssh.ExitError` status, else 1) and defers `os.Exit`; then
`termios.SetTermios(0, t)` restores the terminal a second time; the
deferred `os.Exit` (or a normal return, status 0) happens last. We model
the observable effects as an event trace. -/

/-- Observable lifecycle events: entering raw mode, restoring the saved
terminal mode, returning from `session.Wait`, and process exit with a
status. -/
inductive Ev where
  | enterRaw : Ev
  | waited : Ev
  | restoreTerm : Ev
  | procExit : Nat → Ev
deriving DecidableEq

/-- The error `runClient`/`shell` hands back to `main`: a structured
remote-exit error carrying the remote status, or any other failure
(dial, config, start, ...). -/
inductive SshError where
  | exitError : Nat → SshError
  | otherFailure : SshError
deriving DecidableEq

/-- How one run of `shell` can terminate, for a session that reached raw
mode: the pty request fails (`log.Fatal`), `session.Start` fails,
`session.Wait` returns nil, or `session.Wait` returns an exit error with
the remote status. -/
inductive ShellOutcome where
  | ptyFail : ShellOutcome
  | startFail : ShellOutcome
  | waitOk : ShellOutcome
  | waitErr : Nat → ShellOutcome
deriving DecidableEq

/-- The events of one `shell` run, whether it returned to the caller (a
`log.Fatal` does not), and the error value it returned. On `ptyFail` the
deferred restore is skipped because `log.Fatal` exits directly; on the
return paths the deferred `t.Set(r)` runs at function return, i.e. after
`session.Wait` on the wait paths. -/
def shellEvents : ShellOutcome → List Ev × Bool × Option SshError
  | ShellOutcome.ptyFail => ([Ev.enterRaw, Ev.procExit 1], false, none)
  | ShellOutcome.startFail => ([Ev.enterRaw, Ev.restoreTerm], true, some SshError.otherFailure)
  | ShellOutcome.waitOk => ([Ev.enterRaw, Ev.waited, Ev.restoreTerm], true, none)
  | ShellOutcome.waitErr c => ([Ev.enterRaw, Ev.waited, Ev.restoreTerm], true, some (SshError.exitError c))

/-- The exit-status mapping in `main` (lines 368-375): no error is
status 0; an `ssh.ExitError` propagates the remote status; any other
error is status 1. -/
def exitCode : Option SshError → Nat
  | none => 0
  | some (SshError.exitError s) => s
  | some SshError.otherFailure => 1

/-- The event trace of `main` around a `shell` run (lines 364-382): if
`shell` never returned the process already exited inside it; otherwise
`main` runs `termios.SetTermios(0, t)` (a second restore) and then the
deferred `os.Exit` (or returns normally, status 0). -/
def mainEvents (o : ShellOutcome) : List Ev :=
  match shellEvents o with
  | (evs, false, _) => evs
  | (evs, true, err) => evs ++ [Ev.restoreTerm, Ev.procExit (exitCode err)]

/-- The whole of `main`'s exit-status behaviour (lines 353-382): with no
arguments, `usage()` ends in `log.Fatalf`, status 1; otherwise the
status is `exitCode` of what `runClient` returned. -/
def mainExit (args : List String) (r : Option SshError) : Nat :=
  if args.isEmpty then 1 else exitCode r

/-! ## Client configuration (function `config`, cpu.go lines 81-123)

`config` reads and parses the identity key file (each failure is an
error naming the file), and if the `-hk` host-key flag is non-empty,
reads that file, tries `ssh.ParsePublicKey` and then
`ssh.ParseAuthorizedKey`, and installs `ssh.FixedHostKey` on success;
with an empty flag the callback stays `ssh.InsecureIgnoreHostKey`. File
reads and parses are modelled by outcome arguments: `keyRead` is `none`
for a read failure and `some parses` otherwise; `hkRead` is `none` for a
read failure and otherwise carries the two parse results (public keys
are abstract `Nat` identifiers). -/

/-- The host-key callback installed in the client configuration: the
permissive `ssh.InsecureIgnoreHostKey`, or `ssh.FixedHostKey pk`. -/
inductive HostKeyCB where
  | insecureIgnoreAny : HostKeyCB
  | fixedKey : Nat → HostKeyCB
deriving DecidableEq

/-- Whether a callback accepts a presented host key: the permissive
callback accepts anything; `fixedKey pk` accepts exactly `pk`. -/
def acceptsKey : HostKeyCB → Nat → Bool
  | HostKeyCB.insecureIgnoreAny, _ => true
  | HostKeyCB.fixedKey pk, k => k == pk

/-- The parts of the produced `ssh.ClientConfig` the claims are about. -/
structure ClientCfg where
  user : String
  hostKeyCallback : HostKeyCB
deriving DecidableEq

/-- Configuration errors, each constructor carrying the file the Go
error message names. -/
inductive CfgError where
  | unreadableKey : String → CfgError
  | unparsableKey : String → CfgError
  | unreadableHostKey : String → CfgError
  | unparsableHostKey : String → CfgError
deriving DecidableEq

/-- The `config` function: read and parse the identity key at `kf` (each
failure an error naming `kf`); if `hostKeyFile` is non-empty, read it
(failure names the file), try the public-key parse, fall back to the
authorized-key parse, error naming the file if both fail, else fix the
host key; an empty `hostKeyFile` leaves the insecure callback. -/
def config (kf : String) (keyRead : Option Bool)
    (hostKeyFile : String) (hkRead : Option (Option Nat × Option Nat))
    (user : String) : Except CfgError ClientCfg :=
  match keyRead with
  | none => Except.error (CfgError.unreadableKey kf)
  | some parses =>
    if !parses then Except.error (CfgError.unparsableKey kf)
    else if hostKeyFile ≠ "" then
      match hkRead with
      | none => Except.error (CfgError.unreadableHostKey hostKeyFile)
      | some (pubParse, authParse) =>
        match pubParse with
        | some pk => Except.ok ⟨user, HostKeyCB.fixedKey pk⟩
        | none =>
          match authParse with
          | some pk => Except.ok ⟨user, HostKeyCB.fixedKey pk⟩
          | none => Except.error (CfgError.unparsableHostKey hostKeyFile)
    else Except.ok ⟨user, HostKeyCB.insecureIgnoreAny⟩

/-! ## Environment propagation (function `env`, cpu.go lines 200-210)

For each entry `v`, `env` does `strings.SplitN(v, "=", 2)`, appends an
empty string when the split produced a single piece, and calls
`s.Setenv(env[0], env[1])`. -/

/-- Go `strings.SplitN(s, "=", 2)`: at most two pieces, split at the
first `=` only (`SplitN("", "=", 2)` is `[""]`). -/
def splitN2Eq : List Char → List (List Char)
  | [] => [[]]
  | c :: rest =>
    if c = '=' then [[], rest]
    else
      match splitN2Eq rest with
      | [] => [[c]]
      | h :: t => (c :: h) :: t

/-- The name/value pair `env` passes to `s.Setenv` for one entry: split
at the first `=`, pad with an empty value when there was no `=`. -/
def envPair (s : List Char) : List Char × List Char :=
  let e := splitN2Eq s
  let e2 := if e.length = 1 then e ++ [[]] else e
  (e2.getD 0 [], e2.getD 1 [])

/-! ## Shared lemmas -/

/-- Every value below 16 renders as a lowercase hexadecimal digit. -/
theorem hexDigit_hexLower : ∀ n < 16, isHexLower (hexDigit n) = true := by decide

/-- Hex encoding yields two characters per byte. -/
theorem hexEncode_length (bs : List Nat) : (hexEncode bs).length = 2 * bs.length := by
  induction bs with
  | nil => rfl
  | cons b rest ih => simp [hexEncode, ih]; omega

/-- Hex encoding of bytes yields only lowercase hexadecimal digits. -/
theorem hexEncode_hexLower : ∀ bs : List Nat, (∀ b ∈ bs, b < 256) →
    ∀ c ∈ hexEncode bs, isHexLower c = true := by
  intro bs
  induction bs with
  | nil => intro _ c hc; cases hc
  | cons b rest ih =>
    intro hb c hc
    have hrest : ∀ x ∈ rest, x < 256 := fun x hx => hb x (List.mem_cons_of_mem b hx)
    have hb0 : b < 256 := hb b (List.mem_cons_self b rest)
    rcases hc with _ | ⟨_, hc⟩
    · exact hexDigit_hexLower (b / 16) (Nat.div_lt_of_lt_mul (by omega))
    · rcases hc with _ | ⟨_, hc⟩
      · exact hexDigit_hexLower (b % 16) (Nat.mod_lt b (by omega))
      · exact ih hrest c hc

/-- The modelled `strings.Split` on ":" never produces an empty list
(it yields one piece more than the number of separators). -/
theorem splitColon_ne_nil (s : List Char) : splitColon s ≠ [] := by
  cases s with
  | nil => simp [splitColon]
  | cons c rest =>
    simp only [splitColon]
    split
    · simp
    · split <;> simp

/-- Consequence for the port extraction: the `len(ap) == 0` guard in
`runClient` never fires, so `extractPort9p` always succeeds, returning
the segment after the last colon (the whole address when there is no
colon at all). -/
theorem extractPort9p_ok (s : List Char) :
    extractPort9p s = Except.ok ((splitColon s).getLastD []) := by
  have h : ¬(splitColon s).length = 0 := by
    simpa using splitColon_ne_nil s
  simp [extractPort9p, h]

/-- A non-empty string has `length == 0` false. -/
theorem length_beq_zero_of_ne (ns : String) (h : ns ≠ "") :
    (!(ns.length == 0)) = true := by
  simp only [Bool.not_eq_true', beq_eq_false_iff_ne, ne_eq]
  intro h0
  apply h
  cases ns with
  | mk data =>
    cases data with
    | nil => rfl
    | cons c t => simp [String.length] at h0

/-- Entries without a separator pass through `SplitN` whole. -/
theorem splitN2Eq_no_eq : ∀ s : List Char, '=' ∉ s → splitN2Eq s = [s] := by
  intro s
  induction s with
  | nil => intro _; rfl
  | cons c rest ih =>
    intro h
    have hc : ¬(c = '=') := by
      intro he; exact h (he ▸ List.mem_cons_self c rest)
    have hrest : '=' ∉ rest := fun hm => h (List.mem_cons_of_mem c hm)
    simp [splitN2Eq, hc, ih hrest]

/-- `SplitN` with limit 2 cuts exactly at the first separator. -/
theorem splitN2Eq_first : ∀ a : List Char, ∀ b : List Char, '=' ∉ a →
    splitN2Eq (a ++ '=' :: b) = [a, b] := by
  intro a
  induction a with
  | nil => intro b _; rfl
  | cons c rest ih =>
    intro b h
    have hc : ¬(c = '=') := by
      intro he; exact h (he ▸ List.mem_cons_self c rest)
    have hrest : '=' ∉ rest := fun hm => h (List.mem_cons_of_mem c hm)
    simp [splitN2Eq, hc, ih b hrest]

/-! ## Claim theorems -/

/-- Claim C1: when the random read succeeds (16 bytes), `generateNonce`
returns a secret of exactly 32 characters, each a lowercase hexadecimal
digit in [0-9a-f]; when the random read fails, it returns the error
(modelled `none`) rather than a degraded secret. -/
theorem c1_secret_hex_length (bs : List Nat) (h16 : bs.length = 16)
    (hb : ∀ b ∈ bs, b < 256) :
    (∃ s, generateNonce (some bs) = some s ∧ s.length = 32 ∧
        ∀ c ∈ s, isHexLower c = true)
    ∧ generateNonce none = none := by
  refine ⟨⟨hexEncode bs, rfl, ?_, hexEncode_hexLower bs hb⟩, rfl⟩
  rw [hexEncode_length, h16]

/-- Witness for C1 at a concrete 16-byte random read. -/
theorem c1_secret_hex_length_witness :
    (([0, 1, 2, 3, 4, 5, 6, 7, 8, 9, 10, 11, 12, 13, 14, 255] : List Nat).length = 16
      ∧ ∀ b ∈ ([0, 1, 2, 3, 4, 5, 6, 7, 8, 9, 10, 11, 12, 13, 14, 255] : List Nat), b < 256)
    ∧ ((∃ s, generateNonce (some [0, 1, 2, 3, 4, 5, 6, 7, 8, 9, 10, 11, 12, 13, 14, 255]) = some s
          ∧ s.length = 32 ∧ ∀ c ∈ s, isHexLower c = true)
      ∧ generateNonce none = none) :=
  ⟨⟨by decide, by decide⟩,
    c1_secret_hex_length [0, 1, 2, 3, 4, 5, 6, 7, 8, 9, 10, 11, 12, 13, 14, 255]
      (by decide) (by decide)⟩

/-- Claim C2 counterexample: in the armed-escape state, the byte `~`
(which differs from `.`) does NOT forward two tilde bytes and return to
the initial state, as the claim asserts for every non-`.` byte: the code
writes a single `~` and leaves the escape armed (`tilde` stays true). -/
theorem c2_escape_armed_counterexample :
    ('~' : Char) ≠ '.'
    ∧ stdinStep armed '~' = (['~'], armed, false)
    ∧ stdinStep armed '~' ≠ (['~', '~'], stdinInit, false) := by
  decide

/-- Claim C2 amended: in the armed-escape state, a byte other than `.`,
`~`, newline and carriage return forwards the literal `~`, then the
byte, and returns to the initial (NORMAL) state; the byte `~` instead
forwards a single `~` and leaves the escape armed; nevertheless feeding
a, newline, `~`, `~`, b forwards exactly a, newline, `~`, `~`, b and
leaves the relay in the initial state with the stream open (the pending
tilde is flushed when b arrives). -/
theorem c2_escape_armed_amended (c : Char) (hdot : c ≠ '.') (htilde : c ≠ '~')
    (hn : c ≠ '\n') (hr : c ≠ '\r') :
    stdinStep armed c = (['~', c], stdinInit, false)
    ∧ stdinStep armed '~' = (['~'], armed, false)
    ∧ stdinRun stdinInit ['a', '\n', '~', '~', 'b'] =
        (['a', '\n', '~', '~', 'b'], stdinInit, false) := by
  refine ⟨?_, by decide, by decide⟩
  simp [stdinStep, armed, stdinInit, hdot, htilde, hn, hr]

/-- Witness for the amended C2 at the concrete byte x. -/
theorem c2_escape_armed_amended_witness :
    (('x' : Char) ≠ '.' ∧ ('x' : Char) ≠ '~' ∧ ('x' : Char) ≠ '\n' ∧ ('x' : Char) ≠ '\r')
    ∧ (stdinStep armed 'x' = (['~', 'x'], stdinInit, false)
      ∧ stdinStep armed '~' = (['~'], armed, false)
      ∧ stdinRun stdinInit ['a', '\n', '~', '~', 'b'] =
          (['a', '\n', '~', '~', 'b'], stdinInit, false)) :=
  ⟨by decide, c2_escape_armed_amended 'x' (by decide) (by decide) (by decide) (by decide)⟩

/-- Claim C3, evaluated at the failing input: for an allocated address
with no colon the negotiator does NOT fail — the dead `len(ap) == 0`
guard (strings.Split never returns an empty slice) lets the whole
address through as the port string — while for the well-formed
`127.0.0.1:0` it extracts the non-empty numeric segment `0` after the
last colon, as the claim says. -/
theorem c3_no_colon_accepted :
    extractPort9p ("127.0.0.1".toList) = Except.ok ("127.0.0.1".toList)
    ∧ extractPort9p ("127.0.0.1:0".toList) = Except.ok ['0']
    ∧ splitColon ("127.0.0.1".toList) ≠ [] := by
  refine ⟨rfl, rfl, by decide⟩

/-- Claim C4 counterexample: on the normal-completion path the terminal
mode is restored twice (once by the deferred restore in `shell`, once by
`main`), not exactly once as the claim asserts. -/
theorem c4_restore_count_counterexample :
    (mainEvents ShellOutcome.waitOk).count Ev.restoreTerm = 2
    ∧ (mainEvents ShellOutcome.waitOk).count Ev.restoreTerm ≠ 1 := by
  decide

/-- Claim C4 amended: on normal completion and on a remote-command
error, the terminal mode is restored exactly twice — once by the session
routine at return, once by `main` — each restoration after the remote
command has been awaited and before the process exits with the mapped
status; on the pseudo-terminal-request failure path the process exits
without restoring at all. -/
theorem c4_restore_amended (c : Nat) :
    mainEvents ShellOutcome.waitOk =
      [Ev.enterRaw, Ev.waited, Ev.restoreTerm, Ev.restoreTerm, Ev.procExit 0]
    ∧ mainEvents (ShellOutcome.waitErr c) =
      [Ev.enterRaw, Ev.waited, Ev.restoreTerm, Ev.restoreTerm, Ev.procExit c]
    ∧ mainEvents ShellOutcome.ptyFail = [Ev.enterRaw, Ev.procExit 1] :=
  ⟨rfl, rfl, rfl⟩

/-- Claim C5: with CPU_NAMESPACE present and empty, `runClient` requests
no listener, generates no nonce, adds no port flag and no nonce
environment entry; with CPU_NAMESPACE unset, or set non-empty, the full
namespace path is taken (listener requested, nonce generated, `-port9p`
flag and CPUNONCE entry added). -/
theorem c5_namespace_disable (bin ns addr nonceStr a : String) (hns : ns ≠ "") :
    buildRemote bin (some "") addr nonceStr a =
      Except.ok ⟨bin ++ " -remote -bin " ++ bin ++ " " ++ goQuote a, [], false, false⟩
    ∧ (∃ p, extractPort9p addr.toList = Except.ok p ∧
        buildRemote bin (some ns) addr nonceStr a =
          Except.ok ⟨bin ++ " -remote -bin " ++ bin ++ " -port9p " ++ String.mk p ++ " " ++ goQuote a,
            ["CPUNONCE=" ++ nonceStr], true, true⟩)
    ∧ (∃ p, extractPort9p addr.toList = Except.ok p ∧
        buildRemote bin none addr nonceStr a =
          Except.ok ⟨bin ++ " -remote -bin " ++ bin ++ " -port9p " ++ String.mk p ++ " " ++ goQuote a,
            ["CPUNONCE=" ++ nonceStr], true, true⟩) := by
  refine ⟨?_, ⟨_, extractPort9p_ok _, ?_⟩, ⟨_, extractPort9p_ok _, ?_⟩⟩
  · simp [buildRemote, wantNameSpace]
  · simp [buildRemote, wantNameSpace, length_beq_zero_of_ne ns hns, extractPort9p_ok]
  · simp [buildRemote, wantNameSpace, extractPort9p_ok]

/-- Witness for C5 at concrete inputs. -/
theorem c5_namespace_disable_witness :
    (("x" : String) ≠ "")
    ∧ (buildRemote "cpud" (some "") "127.0.0.1:45" "abc" "date" =
        Except.ok ⟨"cpud" ++ " -remote -bin " ++ "cpud" ++ " " ++ goQuote "date", [], false, false⟩
      ∧ (∃ p, extractPort9p ("127.0.0.1:45".toList) = Except.ok p ∧
          buildRemote "cpud" (some "x") "127.0.0.1:45" "abc" "date" =
            Except.ok ⟨"cpud" ++ " -remote -bin " ++ "cpud" ++ " -port9p " ++ String.mk p ++ " " ++ goQuote "date",
              ["CPUNONCE=" ++ "abc"], true, true⟩)
      ∧ (∃ p, extractPort9p ("127.0.0.1:45".toList) = Except.ok p ∧
          buildRemote "cpud" none "127.0.0.1:45" "abc" "date" =
            Except.ok ⟨"cpud" ++ " -remote -bin " ++ "cpud" ++ " -port9p " ++ String.mk p ++ " " ++ goQuote "date",
              ["CPUNONCE=" ++ "abc"], true, true⟩)) :=
  ⟨by decide, c5_namespace_disable "cpud" "x" "127.0.0.1:45" "abc" "date" (by decide)⟩

/-- Claim C6 counterexample: with an empty user command, SHELL=/bin/bash,
bin cpud and allocated port 3, the remote command string is NOT the
claimed `cpud -remote -bin cpud -port9p 3 /bin/bash`: the `%q` verb
appends the defaulted argument in double-quoted form, yielding
`cpud -remote -bin cpud -port9p 3 "/bin/bash"`. -/
theorem c6_quoted_command_counterexample :
    defaultCommand "" "/bin/bash" = "/bin/bash"
    ∧ builtCmd (buildRemote "cpud" none "127.0.0.1:3" "n" (defaultCommand "" "/bin/bash"))
        = "cpud -remote -bin cpud -port9p 3 \"/bin/bash\""
    ∧ builtCmd (buildRemote "cpud" none "127.0.0.1:3" "n" (defaultCommand "" "/bin/bash"))
        ≠ "cpud -remote -bin cpud -port9p 3 /bin/bash" := by
  refine ⟨rfl, rfl, by decide⟩

/-- Claim C6 amended: with an empty user command, SHELL=/bin/bash and
namespace mode enabled, the remote command string is exactly
`<bin> -remote -bin <bin> -port9p <N> "/bin/bash"` for the allocated
port N — the empty command defaults to the local SHELL value, which is
appended in Go double-quoted (%q) form, not verbatim. -/
theorem c6_default_shell_amended (bin addr nonceStr : String) (ns : Option String)
    (hw : wantNameSpace ns = true) :
    ∃ p, extractPort9p addr.toList = Except.ok p ∧
      buildRemote bin ns addr nonceStr (defaultCommand "" "/bin/bash") =
        Except.ok ⟨bin ++ " -remote -bin " ++ bin ++ " -port9p " ++ String.mk p ++ " " ++ "\"/bin/bash\"",
          ["CPUNONCE=" ++ nonceStr], true, true⟩ := by
  refine ⟨_, extractPort9p_ok _, ?_⟩
  have hq : goQuote (defaultCommand "" "/bin/bash") = "\"/bin/bash\"" := rfl
  simp [buildRemote, hw, extractPort9p_ok, hq]

/-- Witness for the amended C6 at concrete inputs. -/
theorem c6_default_shell_amended_witness :
    wantNameSpace none = true
    ∧ ∃ p, extractPort9p ("127.0.0.1:3".toList) = Except.ok p ∧
        buildRemote "cpud" none "127.0.0.1:3" "n" (defaultCommand "" "/bin/bash") =
          Except.ok ⟨"cpud" ++ " -remote -bin " ++ "cpud" ++ " -port9p " ++ String.mk p ++ " " ++ "\"/bin/bash\"",
            ["CPUNONCE=" ++ "n"], true, true⟩ :=
  ⟨rfl, c6_default_shell_amended "cpud" "127.0.0.1:3" "n" none rfl⟩

/-- Claim C7: feeding a, newline, `~`, `.`, b to the input relay
forwards only a and the newline; the `~` and `.` are consumed
unforwarded, the stream is closed, and the relay terminates before b is
forwarded (b is neither read nor in the output). -/
theorem c7_escape_dot_closes :
    stdinRun stdinInit ['a', '\n', '~', '.', 'b'] = (['a', '\n'], ⟨false, true⟩, true)
    ∧ 'b' ∉ (stdinRun stdinInit ['a', '\n', '~', '.', 'b']).1 := by
  decide

/-- Claim C8: the process exit status is 0 on success, the remote
command status when the transport reports a structured remote-exit
error, and 1 for every other failure including the no-argument usage
path. -/
theorem c8_exit_status_mapping (s : Nat) (arg : String) (rest : List String)
    (r : Option SshError) :
    mainExit [] r = 1
    ∧ mainExit (arg :: rest) none = 0
    ∧ mainExit (arg :: rest) (some (SshError.exitError s)) = s
    ∧ mainExit (arg :: rest) (some SshError.otherFailure) = 1 :=
  ⟨rfl, rfl, rfl, rfl⟩

/-- Claim C9: a supplied host-key file is parsed as a raw public key or,
failing that, as an authorized-key line, and the configuration then
accepts exactly that key; with no host-key file any host key is
accepted; an unreadable or unparsable identity key file is a
configuration error naming the file. -/
theorem c9_hostkey_config (kf hkf user : String) (pk pk2 k : Nat)
    (hkRead : Option (Option Nat × Option Nat)) (hk : hkf ≠ "") :
    config kf none hkf hkRead user = Except.error (CfgError.unreadableKey kf)
    ∧ config kf (some false) hkf hkRead user = Except.error (CfgError.unparsableKey kf)
    ∧ config kf (some true) "" hkRead user = Except.ok ⟨user, HostKeyCB.insecureIgnoreAny⟩
    ∧ acceptsKey HostKeyCB.insecureIgnoreAny k = true
    ∧ config kf (some true) hkf none user = Except.error (CfgError.unreadableHostKey hkf)
    ∧ config kf (some true) hkf (some (some pk, some pk2)) user = Except.ok ⟨user, HostKeyCB.fixedKey pk⟩
    ∧ config kf (some true) hkf (some (none, some pk2)) user = Except.ok ⟨user, HostKeyCB.fixedKey pk2⟩
    ∧ config kf (some true) hkf (some (none, none)) user = Except.error (CfgError.unparsableHostKey hkf)
    ∧ (acceptsKey (HostKeyCB.fixedKey pk) k = true ↔ k = pk) := by
  refine ⟨rfl, rfl, ?_, rfl, ?_, ?_, ?_, ?_, ?_⟩
  · simp [config]
  · simp [config, hk]
  · simp [config, hk]
  · simp [config, hk]
  · simp [config, hk]
  · simp [acceptsKey]

/-- Witness for C9 at concrete inputs. -/
theorem c9_hostkey_config_witness :
    (("hk.pub" : String) ≠ "")
    ∧ (config "id" none "hk.pub" (some (some 1, none)) "u" = Except.error (CfgError.unreadableKey "id")
      ∧ config "id" (some false) "hk.pub" (some (some 1, none)) "u" = Except.error (CfgError.unparsableKey "id")
      ∧ config "id" (some true) "" (some (some 1, none)) "u" = Except.ok ⟨"u", HostKeyCB.insecureIgnoreAny⟩
      ∧ acceptsKey HostKeyCB.insecureIgnoreAny 9 = true
      ∧ config "id" (some true) "hk.pub" none "u" = Except.error (CfgError.unreadableHostKey "hk.pub")
      ∧ config "id" (some true) "hk.pub" (some (some 5, some 7)) "u" = Except.ok ⟨"u", HostKeyCB.fixedKey 5⟩
      ∧ config "id" (some true) "hk.pub" (some (none, some 7)) "u" = Except.ok ⟨"u", HostKeyCB.fixedKey 7⟩
      ∧ config "id" (some true) "hk.pub" (some (none, none)) "u" = Except.error (CfgError.unparsableHostKey "hk.pub")
      ∧ (acceptsKey (HostKeyCB.fixedKey 5) 9 = true ↔ 9 = 5)) :=
  ⟨by decide, c9_hostkey_config "id" "hk.pub" "u" 5 7 9 (some (some 1, none)) (by decide)⟩

/-- Claim C10: environment propagation splits each entry at the first
`=` only — the name is the prefix before the first `=`, the value is
everything after it (a value containing `=` stays intact) — and an entry
with no `=` at all is set with the empty string as its value. -/
theorem c10_env_first_eq_split (a b s : List Char) (ha : '=' ∉ a) (hs : '=' ∉ s) :
    envPair (a ++ '=' :: b) = (a, b) ∧ envPair s = (s, []) := by
  constructor
  · simp [envPair, splitN2Eq_first a b ha]
  · simp [envPair, splitN2Eq_no_eq s hs]

/-- Witness for C10 at a concrete entry whose value itself contains an
equals sign, and a concrete entry with none. -/
theorem c10_env_first_eq_split_witness :
    ('=' ∉ ['P'] ∧ '=' ∉ ['R', '1'])
    ∧ (envPair (['P'] ++ '=' :: ['a', '=', 'b']) = (['P'], ['a', '=', 'b'])
      ∧ envPair ['R', '1'] = (['R', '1'], [])) :=
  ⟨⟨by decide, by decide⟩,
    c10_env_first_eq_split ['P'] ['a', '=', 'b'] ['R', '1'] (by decide) (by decide)⟩
